import Mathlib

set_option autoImplicit false

/-!
Verification of the multigig-bot scheduling and milestone-state engine.

Shallow Lean embedding of the core scheduling code:
* `parseSchedule` — src/index.js (parseSchedule)
* `parseTimeInterval`, `parseChaosSchedule`, `shouldChaosAlertRun`,
  `createChaosCondition` — src/services/chaosScheduler.js
* `shouldRunAlert`, `runMarker`, `processAlert`, `processTick` — src/index.js
  (due-check and cron tick loop)
* milestone alert conditions — src/alerts/cumulativeDataAlert.js and the
  site download / time wasted milestone alerts
* `consoleErrorStep` — src/index.js (console.error override rate limiting)

JavaScript wall-clock timestamps are embedded as `Int` milliseconds,
probabilities as `ℚ`, and the timezone-sensitive locale functions as explicit
fields of an `Env` record (the embedding of "what the civil clock currently
reads in a given IANA timezone").
-/

namespace Multigig

/-! ### Schedule parsing (src/index.js `parseSchedule`) -/

/-- Result of `parseSchedule`: the `"TIME_BASED_DAILY"` marker string, a
number of milliseconds, or — because `schedules[schedule]` is a bare property
access on an object literal — a truthy member inherited from
`Object.prototype` (a function, or `Object.prototype` itself for
`"__proto__"`), tagged here by the key that produced it. -/
inductive ScheduleResult where
  | timeBasedDaily : ScheduleResult
  | interval (ms : Nat) : ScheduleResult
  | inherited (key : String) : ScheduleResult
  deriving DecidableEq, Repr

/-- `parseInt` on a string of decimal digits. -/
def digitsToNat (cs : List Char) : Nat :=
  cs.foldl (fun a c => a * 10 + (c.toNat - 48)) 0

/-- One of the four unit letters accepted by the regex `^(\d+)([smhd])$`. -/
def isUnitChar (c : Char) : Bool :=
  c = 's' || c = 'm' || c = 'h' || c = 'd'

/-- The regex match `schedule.match(/^(\d+)([smhd])$/)`: at least one digit,
followed by exactly one unit letter at the end of the string. -/
def matchIntervalRe (s : String) : Option (Nat × Char) :=
  match s.data.getLast? with
  | none => none
  | some u =>
    if s.data.dropLast ≠ [] && (s.data.dropLast).all Char.isDigit && isUnitChar u then
      some (digitsToNat s.data.dropLast, u)
    else none

/-- The `multipliers` table of src/index.js `parseSchedule`
(s = 1000ms, m = 60s, h = 60m, d = 24h). -/
def unitMultiplier (c : Char) : Nat :=
  if c = 's' then 1000
  else if c = 'm' then 60000
  else if c = 'h' then 3600000
  else if c = 'd' then 86400000
  else 0

/-- The property names the `schedules` object literal inherits from
`Object.prototype` (Node/V8).  `schedules[schedule]` returns a truthy value
for each of them — a function, or `Object.prototype` itself for
`"__proto__"` — so `if (schedules[schedule]) return schedules[schedule]`
takes these strings too, not only the three own keys. -/
def objectProtoKeys : List String :=
  ["constructor", "hasOwnProperty", "isPrototypeOf", "propertyIsEnumerable",
   "toLocaleString", "toString", "valueOf", "__defineGetter__",
   "__defineSetter__", "__lookupGetter__", "__lookupSetter__", "__proto__"]

/-- src/index.js `parseSchedule(schedule)`.  `none` stands for an absent
`schedule` property; the empty string is falsy in JavaScript, so both take the
`if (!schedule) return 60000` branch.  The table lookup
`if (schedules[schedule]) return schedules[schedule]` hits the three own keys
and, through the prototype chain, every `Object.prototype` member name: those
strings return the inherited truthy non-number instead of reaching the regex
or the 60000 ms fallback. -/
def parseSchedule (schedule : Option String) : ScheduleResult :=
  match schedule with
  | none => .interval 60000
  | some s =>
    if s = "" then .interval 60000
    else if s = "daily" then .timeBasedDaily
    else if s = "hourly" then .interval 3600000
    else if s = "weekly" then .interval 604800000
    else if s = "minute" then .interval 60000
    else if objectProtoKeys.contains s then .inherited s
    else
      match matchIntervalRe s with
      | some (v, u) => .interval (v * unitMultiplier u)
      | none => .interval 60000

/-! ### Chaos schedule parsing (src/services/chaosScheduler.js) -/

/-- `ChaosScheduler.parseTimeInterval(interval)`: same regex as above, falling
back to 15 minutes on no match. -/
def parseTimeInterval (interval : String) : Nat :=
  match matchIntervalRe interval with
  | some (v, u) => v * unitMultiplier u
  | none => 900000

/-- The regex match `schedule.match(/^chaos:(.+)$/)` (the captured suffix must
be non-empty). -/
def chaosSuffix (s : String) : Option String :=
  match s.data with
  | 'c' :: 'h' :: 'a' :: 'o' :: 's' :: ':' :: rest =>
    if rest = [] then none else some ⟨rest⟩
  | _ => none

/-- `ChaosScheduler.parseChaosSchedule(schedule)`.  The configured
`defaultCheckInterval` is the string `"15m"`. -/
def parseChaosSchedule (schedule : String) : Nat :=
  if schedule = "chaos" then parseTimeInterval "15m"
  else
    match chaosSuffix schedule with
    | some rest => parseTimeInterval rest
    | none => parseTimeInterval "15m"

/-- A schedule string recognized by one of `parseSchedule`'s non-fallback
branches (the `"daily"` literal, the table lookup — own keys and inherited
`Object.prototype` member names — or the interval regex). -/
def recognizedSchedule (s : String) : Bool :=
  s = "daily" || s = "hourly" || s = "weekly" || s = "minute" ||
    objectProtoKeys.contains s || (matchIntervalRe s).isSome

/-! ### Due-check (src/index.js `shouldRunAlert` and the last-run update) -/

/-- One entry of the persisted `lastRuns` map: a millisecond timestamp for
interval alerts, a `YYYY-MM-DD` date string for daily alerts. -/
inductive Marker where
  | ts (t : Int)
  | date (d : String)
  deriving DecidableEq, Repr

/-- The persisted `lastRuns.json` contents. -/
abbrev RunMap := String → Option Marker

/-- An alert module's scheduling-relevant exports (`name`, `schedule`). -/
structure AlertCfg where
  name : String
  schedule : Option String

/-- The relevant fields of `finalConfig` (`timezone`, `dailyAlertHour`). -/
structure BotConfig where
  timezone : Option String
  dailyAlertHour : Option Nat

/-- `config.timezone || "America/New_York"` (the empty string is falsy). -/
def effectiveTimezone (cfg : BotConfig) : String :=
  match cfg.timezone with
  | some tz => if tz = "" then "America/New_York" else tz
  | none => "America/New_York"

/-- `config.dailyAlertHour || 9` (the number 0 is falsy). -/
def effectiveHour (cfg : BotConfig) : Nat :=
  match cfg.dailyAlertHour with
  | some h => if h = 0 then 9 else h
  | none => 9

/-- The ambient wall clock: `Date.now()` plus the two locale views used by
`getCurrentDateInTimezone` (the `YYYY-MM-DD` date string in a timezone) and
`isCurrentlyDailyAlertHour` (the current local hour in a timezone). -/
structure Env where
  nowMs : Int
  localDate : String → String
  localHour : String → Nat

/-- src/index.js `shouldRunAlert(alert, lastRuns, config)`.
For the daily branch: due iff the current local hour equals the target hour
and the stored marker is not (strictly equal to) today's date string.
For the interval branch: `lastRuns[alertName] || 0`, then
`now - lastRun >= scheduleMs`.  A stored non-empty date string in the interval
branch makes `now - lastRun` NaN in JavaScript, so every comparison is false. -/
def shouldRunAlert (env : Env) (alert : AlertCfg) (lastRuns : RunMap)
    (cfg : BotConfig) : Bool :=
  match parseSchedule alert.schedule with
  | .timeBasedDaily =>
    let tz := effectiveTimezone cfg
    if env.localHour tz ≠ effectiveHour cfg then false
    else
      match lastRuns alert.name with
      | some (.date d) => d ≠ env.localDate tz
      | _ => true
  | .interval ms =>
    match lastRuns alert.name with
    | some (.date d) =>
      if d = "" then decide (env.nowMs - 0 ≥ (ms : Int)) else false
    | some (.ts t) => decide (env.nowMs - t ≥ (ms : Int))
    | none => decide (env.nowMs - 0 ≥ (ms : Int))
  | .inherited _ =>
    -- an inherited function/object is not `"TIME_BASED_DAILY"`, so the
    -- interval branch runs; `now - lastRun >= scheduleMs` coerces the
    -- function to NaN and the comparison is always false in JavaScript
    false

/-- The marker written back by the tick loop after an alert's evaluation pass:
today's date string for daily alerts, `Date.now()` for everything else
(the loop's else branch covers intervals and inherited lookup results alike). -/
def runMarker (env : Env) (cfg : BotConfig) (alert : AlertCfg) : Marker :=
  match parseSchedule alert.schedule with
  | .timeBasedDaily => .date (env.localDate (effectiveTimezone cfg))
  | .interval _ => .ts env.nowMs
  | .inherited _ => .ts env.nowMs

/-- `lastRuns[alert.name] = marker` (JavaScript object assignment). -/
def setRun (m : RunMap) (name : String) (mk : Marker) : RunMap :=
  fun n => if n = name then some mk else m n

end Multigig

namespace Multigig

/-! ### Theorems for claims C1 and C9 -/

/-- C1: the claim says the schedule parser maps `"chaos"` to a Chaos cadence
with the default 15-minute check interval and `"chaos:10m"` / `"chaos:20m"` to
Chaos cadences with the parsed suffix interval, never to the 1-minute
unrecognized-input fallback.  In the code, only
`ChaosScheduler.parseChaosSchedule` behaves that way (conjuncts 4–6), and it is
never reached from the tick loop: the loop's actual parser `parseSchedule` in
src/index.js has no chaos branch, so every chaos schedule string degrades to
the 60000 ms fallback interval (conjuncts 1–3), contradicting the claim and
the repository's own documentation of chaos schedules. -/
theorem c1_chaos_strings_hit_the_one_minute_fallback :
    parseSchedule (some "chaos") = ScheduleResult.interval 60000 ∧
    parseSchedule (some "chaos:10m") = ScheduleResult.interval 60000 ∧
    parseSchedule (some "chaos:20m") = ScheduleResult.interval 60000 ∧
    parseChaosSchedule "chaos" = 900000 ∧
    parseChaosSchedule "chaos:10m" = 600000 ∧
    parseChaosSchedule "chaos:20m" = 1200000 := by
  refine ⟨?_, ?_, ?_, ?_, ?_, ?_⟩ <;> decide

/-- When the schedule lookup returns an inherited `Object.prototype` member,
the due-check's interval branch compares `now - lastRun` against a function
(NaN after coercion), so the alert is never due. -/
theorem shouldRunAlert_inherited (env : Env) (alert : AlertCfg)
    (lastRuns : RunMap) (cfg : BotConfig) (k : String)
    (hp : parseSchedule alert.schedule = ScheduleResult.inherited k) :
    shouldRunAlert env alert lastRuns cfg = false := by
  unfold shouldRunAlert
  rw [hp]

/-- C9 counterexample: the original claim says every unrecognized input falls
back to a 60000 ms interval and the parser always returns a cadence
descriptor.  The string `"constructor"` matches no documented schedule form —
it fails the interval regex — yet `schedules["constructor"]` finds the
inherited `Object` constructor function, so `parseSchedule` returns that
truthy non-interval value instead of the fallback, and the unit is then never
due; a genuine fallback unit (compare the `"minute"` unit, 60000 ms) would be
due on a cold start at the same clock. -/
theorem c9_counterexample :
    matchIntervalRe "constructor" = none ∧
    parseSchedule (some "constructor")
      = ScheduleResult.inherited "constructor" ∧
    parseSchedule (some "constructor") ≠ ScheduleResult.interval 60000 ∧
    shouldRunAlert ⟨1700000000000, fun _ => "2024-01-05", fun _ => 9⟩
      ⟨"Proto Alert", some "constructor"⟩ (fun _ => none) ⟨none, none⟩
      = false ∧
    shouldRunAlert ⟨1700000000000, fun _ => "2024-01-05", fun _ => 9⟩
      ⟨"Proto Alert", some "minute"⟩ (fun _ => none) ⟨none, none⟩ = true := by
  refine ⟨by decide, by decide, by decide, by decide, by decide⟩

/-- C9 amended: for every string that does not name an inherited
`Object.prototype` member, `parseSchedule` yields a cadence descriptor, with
any unrecognized non-empty string, the empty string, and an absent schedule
falling back to the 60000 ms interval, and `"0m"` accepted as an always-due
0 ms interval; a string that does name an inherited member (`"constructor"`,
`"toString"`, ...) instead returns the inherited truthy value, and such a
unit's due-check is always false. -/
theorem c9_parse_totality (s : String) (env : Env) (cfg : BotConfig)
    (alert : AlertCfg) (lastRuns : RunMap) (t : Int)
    (hunrec : recognizedSchedule s = false) (hne : s ≠ "")
    (hsched : alert.schedule = some "0m")
    (hrun : lastRuns alert.name = some (.ts t)) (ht : t ≤ env.nowMs) :
    (parseSchedule (some s) = ScheduleResult.interval 60000) ∧
    (parseSchedule none = ScheduleResult.interval 60000) ∧
    (parseSchedule (some "") = ScheduleResult.interval 60000) ∧
    (∀ q : Option String, parseSchedule q = ScheduleResult.timeBasedDaily ∨
      (∃ ms : Nat, parseSchedule q = ScheduleResult.interval ms) ∨
      (∃ k : String, objectProtoKeys.contains k = true ∧
        q = some k ∧ parseSchedule q = ScheduleResult.inherited k)) ∧
    (parseSchedule (some "0m") = ScheduleResult.interval 0) ∧
    (shouldRunAlert env alert lastRuns cfg = true) ∧
    (∀ name2 k : String, objectProtoKeys.contains k = true →
      parseSchedule (some k) = ScheduleResult.inherited k ∧
      shouldRunAlert env ⟨name2, some k⟩ lastRuns cfg = false) := by
  refine ⟨?_, rfl, by decide, ?_, by decide, ?_, ?_⟩
  · unfold parseSchedule
    simp only [recognizedSchedule, Bool.or_eq_false_iff,
      decide_eq_false_iff_not] at hunrec
    obtain ⟨⟨⟨⟨⟨h1, h2⟩, h3⟩, h4⟩, h5⟩, h6⟩ := hunrec
    have h7 : matchIntervalRe s = none :=
      Option.not_isSome_iff_eq_none.mp (by simp [h6])
    have h5n : ¬ objectProtoKeys.contains s = true := by
      rw [h5]; exact Bool.false_ne_true
    simp only [if_neg hne, if_neg h1, if_neg h2, if_neg h3, if_neg h4,
      if_neg h5n, h7]
  · intro q
    match q with
    | none => exact Or.inr (Or.inl ⟨60000, rfl⟩)
    | some s2 =>
      unfold parseSchedule
      by_cases h0 : s2 = ""
      · exact Or.inr (Or.inl ⟨60000, by simp [h0]⟩)
      · by_cases h1 : s2 = "daily"
        · exact Or.inl (by simp [h0, h1])
        · by_cases h2 : s2 = "hourly"
          · exact Or.inr (Or.inl ⟨3600000, by simp [h0, h1, h2]⟩)
          · by_cases h3 : s2 = "weekly"
            · exact Or.inr (Or.inl ⟨604800000, by simp [h0, h1, h2, h3]⟩)
            · by_cases h4 : s2 = "minute"
              · exact Or.inr (Or.inl ⟨60000, by simp [h0, h1, h2, h3, h4]⟩)
              · by_cases h5 : objectProtoKeys.contains s2 = true
                · refine Or.inr (Or.inr ⟨s2, h5, rfl, ?_⟩)
                  simp only [if_neg h0, if_neg h1, if_neg h2, if_neg h3,
                    if_neg h4, if_pos h5]
                · simp only [if_neg h0, if_neg h1, if_neg h2, if_neg h3,
                    if_neg h4, if_neg h5]
                  match matchIntervalRe s2 with
                  | some (v, u) =>
                    exact Or.inr (Or.inl ⟨v * unitMultiplier u, rfl⟩)
                  | none => exact Or.inr (Or.inl ⟨60000, rfl⟩)
  · unfold shouldRunAlert
    rw [hsched]
    have hp0 : parseSchedule (some "0m") = ScheduleResult.interval 0 := by
      decide
    rw [hp0, hrun]
    simp
    omega
  · intro name2 k hk
    have hkmem : k ∈ objectProtoKeys := List.elem_iff.mp hk
    have hp : parseSchedule (some k) = ScheduleResult.inherited k := by
      simp only [objectProtoKeys, List.mem_cons, List.mem_singleton,
        List.not_mem_nil, or_false] at hkmem
      rcases hkmem with
        rfl | rfl | rfl | rfl | rfl | rfl | rfl | rfl | rfl | rfl | rfl | rfl <;>
        decide
    exact ⟨hp, shouldRunAlert_inherited env ⟨name2, some k⟩ lastRuns cfg k hp⟩

/-- Witness for the amended C9 at a concrete unrecognized string and a
concrete `"0m"` alert state. -/
theorem c9_parse_totality_witness :
    (parseSchedule (some "bogus") = ScheduleResult.interval 60000) ∧
    (parseSchedule none = ScheduleResult.interval 60000) ∧
    (parseSchedule (some "") = ScheduleResult.interval 60000) ∧
    (∀ q : Option String, parseSchedule q = ScheduleResult.timeBasedDaily ∨
      (∃ ms : Nat, parseSchedule q = ScheduleResult.interval ms) ∨
      (∃ k : String, objectProtoKeys.contains k = true ∧
        q = some k ∧ parseSchedule q = ScheduleResult.inherited k)) ∧
    (parseSchedule (some "0m") = ScheduleResult.interval 0) ∧
    (shouldRunAlert ⟨1700000000000, fun _ => "2024-01-05", fun _ => 9⟩
        ⟨"Cumulative Data Milestone Alert", some "0m"⟩
        (fun _ => some (.ts 1700000000000)) ⟨none, none⟩ = true) ∧
    (∀ name2 k : String, objectProtoKeys.contains k = true →
      parseSchedule (some k) = ScheduleResult.inherited k ∧
      shouldRunAlert ⟨1700000000000, fun _ => "2024-01-05", fun _ => 9⟩
        ⟨name2, some k⟩ (fun _ => some (.ts 1700000000000)) ⟨none, none⟩
        = false) :=
  c9_parse_totality "bogus" ⟨1700000000000, fun _ => "2024-01-05", fun _ => 9⟩
    ⟨none, none⟩ ⟨"Cumulative Data Milestone Alert", some "0m"⟩
    (fun _ => some (.ts 1700000000000)) 1700000000000
    (by decide) (by decide) rfl rfl (by decide)

end Multigig

namespace Multigig

/-! ### Chaos scheduler (src/services/chaosScheduler.js) -/

/-- The `ChaosScheduler` configuration fields used by the probability
computation (`baseChance`, `maxMultiplier`, `maxMultiplierTime`). -/
structure ChaosConfig where
  baseChance : ℚ
  maxMultiplier : ℚ
  maxMultiplierTime : ℚ

/-- The constructor defaults: 5% base chance, 3x cap, 3 hour window. -/
def chaosDefaults : ChaosConfig :=
  { baseChance := 1/20, maxMultiplier := 3, maxMultiplierTime := 10800000 }

/-- The persisted `state.lastExecutions` map (alert name to last-fire
timestamp in milliseconds). -/
abbrev ChaosMap := String → Option ℚ

/-- The probability computed by `shouldChaosAlertRun`:
`timeMultiplier = min(elapsed / maxMultiplierTime, maxMultiplier)` and
`currentChance = baseChance * max(1, timeMultiplier)`. -/
def currentChance (cfg : ChaosConfig) (timeSinceLastExecution : ℚ) : ℚ :=
  cfg.baseChance *
    max 1 (min (timeSinceLastExecution / cfg.maxMultiplierTime) cfg.maxMultiplier)

/-- `ChaosScheduler.shouldChaosAlertRun(alertName)`:
`lastExecution = state.lastExecutions[alertName] || 0`, then the alert fires
iff `Math.random() < currentChance`.  The uniform draw is the `rand`
argument. -/
def shouldChaosAlertRun (cfg : ChaosConfig) (st : ChaosMap) (alertName : String)
    (now rand : ℚ) : Bool :=
  decide (rand < currentChance cfg (now - (st alertName).getD 0))

/-- `ChaosScheduler.recordChaosExecution(alertName)`: stores `Date.now()` for
the alert. -/
def recordChaosExecution (st : ChaosMap) (alertName : String) (now : ℚ) :
    ChaosMap :=
  fun n => if n = alertName then some now else st n

/-- Result of one call of a condition wrapped by `createChaosCondition`:
the boolean returned to the caller and the chaos state afterwards. -/
structure ChaosCondResult where
  result : Bool
  state : ChaosMap

/-- `ChaosScheduler.createChaosCondition(originalCondition, alertName)`: the
wrapped condition first asks `shouldChaosAlertRun`; on false it returns false
without touching the original condition; on true it evaluates the original
condition and, exactly when that also returns true, records the chaos
execution. -/
def createChaosCondition {ρ : Type} (originalCondition : ρ → Bool)
    (alertName : String) (cfg : ChaosConfig) (st : ChaosMap) (now rand : ℚ)
    (results : ρ) : ChaosCondResult :=
  if shouldChaosAlertRun cfg st alertName now rand = false then
    ⟨false, st⟩
  else
    let shouldRun := originalCondition results
    if shouldRun then ⟨true, recordChaosExecution st alertName now⟩
    else ⟨false, st⟩

/-! ### Theorems for claims C4, C6 and C7 -/

/-- C4: the chaos fire decision computes
`chance = baseChance * max(1, min(elapsed / maxMultiplierWindow, maxMultiplier))`
and fires iff the uniform draw is below that chance; with the defaults,
elapsed = 1.5h (5400000 ms) gives chance 0.05 = 1/20, elapsed = 9h
(32400000 ms) gives chance 0.15 = 3/20, and a unit with no recorded last-fire
entry (elapsed = the full epoch timestamp) gets the capped maximum 3/20. -/
theorem c4_chaos_chance (st : ChaosMap) (name : String) (now rand : ℚ)
    (hmiss : st name = none) (hbig : 32400000 ≤ now) :
    (∀ elapsed : ℚ, currentChance chaosDefaults elapsed =
      (1/20) * max 1 (min (elapsed / 10800000) 3)) ∧
    (∀ st2 : ChaosMap, ∀ r : ℚ,
      shouldChaosAlertRun chaosDefaults st2 name now r = true ↔
        r < currentChance chaosDefaults (now - (st2 name).getD 0)) ∧
    currentChance chaosDefaults 5400000 = 1/20 ∧
    currentChance chaosDefaults 32400000 = 3/20 ∧
    (shouldChaosAlertRun chaosDefaults st name now rand = true ↔
      rand < 3/20) := by
  have hwin : (0 : ℚ) < 10800000 := by norm_num
  refine ⟨fun elapsed => rfl, fun st2 r => by
      simp [shouldChaosAlertRun], ?_, ?_, ?_⟩
  · show (1/20 : ℚ) * max 1 (min (5400000 / 10800000 : ℚ) 3) = 1/20
    norm_num
  · show (1/20 : ℚ) * max 1 (min (32400000 / 10800000 : ℚ) 3) = 3/20
    norm_num
  · have h3 : min ((now - ((none : Option ℚ).getD 0)) / 10800000) 3 = (3 : ℚ) := by
      refine min_eq_right ?_
      rw [Option.getD_none, sub_zero, le_div_iff₀ hwin]
      linarith
    simp only [shouldChaosAlertRun, hmiss]
    rw [decide_eq_true_iff]
    show rand < (1/20 : ℚ) * max 1 (min ((now - ((none : Option ℚ).getD 0)) / 10800000) 3)
      ↔ rand < 3/20
    rw [h3]
    norm_num

/-- Witness for C4 with an empty chaos state and a realistic epoch clock. -/
theorem c4_chaos_chance_witness :
    currentChance chaosDefaults 5400000 = 1/20 ∧
    currentChance chaosDefaults 32400000 = 3/20 ∧
    (shouldChaosAlertRun chaosDefaults (fun _ => none)
        "Chaos Scheduling Example" 1700000000000 (1/10) = true ↔
      (1/10 : ℚ) < 3/20) := by
  have h := c4_chaos_chance (fun _ => none) "Chaos Scheduling Example"
    1700000000000 (1/10) rfl (by norm_num)
  exact ⟨h.2.2.1, h.2.2.2.1, h.2.2.2.2⟩

/-- C6: for a daily alert, the due-check is true iff the current local hour in
the effective timezone equals the target hour and the stored marker differs
from today's date string; the marker written after a run is today's date
string (not a timestamp); a second due-check inside the same civil day is
false; and once the civil date changes the marker no longer blocks, so the
check reduces to the hour comparison again. -/
theorem c6_daily_cadence (env env2 env3 : Env) (cfg : BotConfig)
    (alert : AlertCfg) (lastRuns : RunMap) (hs : alert.schedule = some "daily") :
    (shouldRunAlert env alert lastRuns cfg = true ↔
      (env.localHour (effectiveTimezone cfg) = effectiveHour cfg ∧
        ∀ d, lastRuns alert.name = some (.date d) →
          d ≠ env.localDate (effectiveTimezone cfg))) ∧
    (runMarker env cfg alert = .date (env.localDate (effectiveTimezone cfg))) ∧
    (env2.localDate (effectiveTimezone cfg) = env.localDate (effectiveTimezone cfg) →
      shouldRunAlert env2 alert
        (setRun lastRuns alert.name (runMarker env cfg alert)) cfg = false) ∧
    (env3.localDate (effectiveTimezone cfg) ≠ env.localDate (effectiveTimezone cfg) →
      shouldRunAlert env3 alert
        (setRun lastRuns alert.name (runMarker env cfg alert)) cfg
        = decide (env3.localHour (effectiveTimezone cfg) = effectiveHour cfg)) := by
  have hp : parseSchedule (some "daily") = ScheduleResult.timeBasedDaily := by decide
  have hm : runMarker env cfg alert = .date (env.localDate (effectiveTimezone cfg)) := by
    unfold runMarker
    rw [hs, hp]
  refine ⟨?_, hm, ?_, ?_⟩
  · unfold shouldRunAlert
    rw [hs, hp]
    by_cases hh : env.localHour (effectiveTimezone cfg) = effectiveHour cfg
    · cases h : lastRuns alert.name with
      | none => simp [hh, h]
      | some mk =>
        cases mk with
        | ts t => simp [hh, h]
        | date d => simp [hh, h]
    · simp [hh]
  · intro hsame
    unfold shouldRunAlert
    rw [hs, hp, hm]
    by_cases hh : env2.localHour (effectiveTimezone cfg) = effectiveHour cfg
    · simp [hh, setRun, hsame]
    · simp [hh]
  · intro hdiff
    unfold shouldRunAlert
    rw [hs, hp, hm]
    by_cases hh : env3.localHour (effectiveTimezone cfg) = effectiveHour cfg
    · simp [hh, setRun, (Ne.symm hdiff)]
    · simp [hh]

/-- C7: for an alert whose schedule parses to a fixed interval of `D` ms, the
due-check is true iff `now - lastRun >= D`; an absent entry behaves as
`lastRun = 0` so the unit is due as soon as the epoch clock reads at least
`D`; `"5m"` parses to 300000 ms; and concretely `lastRun = now - D - 1` is due
while `lastRun = now - D + 1` is not. -/
theorem c7_interval_due (env : Env) (alert : AlertCfg) (lastRuns : RunMap)
    (cfg : BotConfig) (D : Nat)
    (hD : parseSchedule alert.schedule = ScheduleResult.interval D) :
    (∀ t : Int, lastRuns alert.name = some (.ts t) →
      (shouldRunAlert env alert lastRuns cfg = true ↔ (D : Int) ≤ env.nowMs - t)) ∧
    (lastRuns alert.name = none →
      (shouldRunAlert env alert lastRuns cfg = true ↔ (D : Int) ≤ env.nowMs)) ∧
    (parseSchedule (some "5m") = ScheduleResult.interval 300000) ∧
    (lastRuns alert.name = some (.ts (env.nowMs - (D : Int) - 1)) →
      shouldRunAlert env alert lastRuns cfg = true) ∧
    (lastRuns alert.name = some (.ts (env.nowMs - (D : Int) + 1)) →
      shouldRunAlert env alert lastRuns cfg = false) := by
  refine ⟨?_, ?_, by decide, ?_, ?_⟩
  · intro t ht
    unfold shouldRunAlert
    rw [hD, ht]
    simp [ge_iff_le]
  · intro hnone
    unfold shouldRunAlert
    rw [hD, hnone]
    simp [ge_iff_le]
  · intro ht
    unfold shouldRunAlert
    rw [hD, ht]
    simp only [decide_eq_true_iff, ge_iff_le]
    omega
  · intro ht
    unfold shouldRunAlert
    rw [hD, ht]
    simp only [decide_eq_false_iff_not, ge_iff_le, not_le]
    omega

end Multigig

namespace Multigig

/-! ### The cron tick loop (src/index.js, `cron.schedule` callback)

One alert's per-tick pipeline is embedded as data: the outcome of the external
InfluxDB query, the condition and message functions (which may throw, embedded
as `Except.error`), and whether the webhook send succeeds.  The notifications
the loop attempts are collected as an event list. -/

/-- A notification attempted during one tick. -/
inductive Event where
  | mainNotify (alertName text : String)
  | dbErrorNotify (alertName : String)
  | notifyFailNotify (alertName : String)
  | criticalErrorNotify (alertName : String)
  deriving DecidableEq, Repr

/-- One loaded alert module together with this tick's pipeline outcomes. -/
structure AlertBehavior (ρ : Type) where
  cfg : AlertCfg
  queryResult : Except String (List ρ)
  condition : Option (List ρ) → Except String Bool
  message : Option (List ρ) → Except String String
  notifyOk : Bool

/-- The notifications attempted for one due alert, following the loop body:
a failed query logs a database-error notification and passes `null` to the
condition; a throwing condition or message lands in the outer catch (critical
error notification); a failed webhook send produces the system-error
notification; a successful pipeline with a true condition sends the main
notification. -/
def alertEvents {ρ : Type} (a : AlertBehavior ρ) : List Event :=
  let results : Option (List ρ) :=
    match a.queryResult with
    | .ok rows => some rows
    | .error _ => none
  let queryEvents : List Event :=
    match a.queryResult with
    | .ok _ => []
    | .error _ => [Event.dbErrorNotify a.cfg.name]
  match a.condition results with
  | .error _ => queryEvents ++ [Event.criticalErrorNotify a.cfg.name]
  | .ok false => queryEvents
  | .ok true =>
    match a.message results with
    | .error _ => queryEvents ++ [Event.criticalErrorNotify a.cfg.name]
    | .ok text =>
      if a.notifyOk then queryEvents ++ [Event.mainNotify a.cfg.name text]
      else queryEvents ++ [Event.notifyFailNotify a.cfg.name]

/-- One iteration of the `for (const alert of alerts)` body.  When the alert
is not due, nothing happens.  When it is due, the loop runs the pipeline
(collected in `alertEvents`) and updates `lastRuns[alert.name]` in every
branch — both the success path and the outer catch write the marker — so the
run-state update is unconditional once the alert is due. -/
def processAlert {ρ : Type} (env : Env) (cfg : BotConfig) (lastRuns : RunMap)
    (a : AlertBehavior ρ) : RunMap × List Event × Bool :=
  if shouldRunAlert env a.cfg lastRuns cfg = false then
    (lastRuns, [], false)
  else
    (setRun lastRuns a.cfg.name (runMarker env cfg a.cfg), alertEvents a, true)

/-- The whole tick: alerts processed sequentially, each inside its own
try/catch, threading the in-memory `lastRuns` map. -/
def processTick {ρ : Type} (env : Env) (cfg : BotConfig)
    (alerts : List (AlertBehavior ρ)) (lastRuns : RunMap) :
    RunMap × List Event :=
  match alerts with
  | [] => (lastRuns, [])
  | a :: rest =>
    let r1 := processAlert env cfg lastRuns a
    let r2 := processTick env cfg rest r1.1
    (r2.1, r1.2.1 ++ r2.2)

/-- A fixed wall clock used for concrete evaluations. -/
def env0 : Env := ⟨1700000000000, fun _ => "2024-01-05", fun _ => 9⟩

/-- A configuration with no timezone and no daily hour set (defaults apply). -/
def cfg0 : BotConfig := ⟨none, none⟩

/-- Cold start: no persisted last runs. -/
def emptyRuns : RunMap := fun _ => none

/-- The chaos example alert's scheduling configuration
(src/alerts/chaosExampleAlert.js: `schedule: "chaos:10m"`). -/
def chaosExampleCfg : AlertCfg := ⟨"Chaos Scheduling Example", some "chaos:10m"⟩

/-- A tick where the chaos example alert's query succeeds and its condition
(plain, not wrapped by `createChaosCondition`) returns true. -/
def chaosExampleBehavior : AlertBehavior Unit :=
  { cfg := chaosExampleCfg
    queryResult := Except.ok [()]
    condition := fun _ => Except.ok true
    message := fun _ => Except.ok "chaos demo"
    notifyOk := true }

end Multigig

namespace Multigig

/-! ### Theorems for claims C2 and C8, and witnesses for C6 and C7 -/

/-- C2: the claim says the tick loop consults the chaos scheduler's fire
decision before a chaos-cadence unit's own condition and records the last-fire
timestamp when both agree.  In the code that behavior exists only inside
`createChaosCondition` (conjuncts 4–5: a failed chaos decision suppresses the
wrapped condition and leaves the last-fire state untouched), which no alert
and no part of the loop uses: the loop parses `"chaos:10m"` to the plain
60000 ms fallback interval (conjunct 3) and, with a fresh run state, sends the
unit's notification unconditionally and stores an ordinary interval timestamp
(conjuncts 1–2) — the probabilistic gate is never consulted and no chaos
last-fire entry is ever written. -/
theorem c2_tick_loop_ignores_chaos_decision :
    (processTick env0 cfg0 [chaosExampleBehavior] emptyRuns).2
      = [Event.mainNotify "Chaos Scheduling Example" "chaos demo"] ∧
    (processTick env0 cfg0 [chaosExampleBehavior] emptyRuns).1
        "Chaos Scheduling Example" = some (Marker.ts 1700000000000) ∧
    parseSchedule (some "chaos:10m") = ScheduleResult.interval 60000 ∧
    (createChaosCondition (fun _ : Unit => true) "Chaos Scheduling Example"
        chaosDefaults (fun _ => none) 1700000000000 (99/100) ()).result
      = false ∧
    (createChaosCondition (fun _ : Unit => true) "Chaos Scheduling Example"
        chaosDefaults (fun _ => none) 1700000000000 (99/100) ()).state
        "Chaos Scheduling Example" = none := by
  have hch : currentChance chaosDefaults (1700000000000 - 0) = 3/20 := by
    show (1/20 : ℚ) * max 1 (min (((1700000000000 : ℚ) - 0) / 10800000) 3) = 3/20
    rw [sub_zero,
      min_eq_right (by norm_num : (3 : ℚ) ≤ 1700000000000 / 10800000),
      max_eq_right (by norm_num : (1 : ℚ) ≤ 3)]
    norm_num
  have hfire : shouldChaosAlertRun chaosDefaults (fun _ => none)
      "Chaos Scheduling Example" 1700000000000 (99/100) = false := by
    simp only [shouldChaosAlertRun, Option.getD_none, hch,
      decide_eq_false_iff_not, not_lt]
    norm_num
  have hwrap : createChaosCondition (fun _ : Unit => true)
      "Chaos Scheduling Example" chaosDefaults (fun _ => none)
      1700000000000 (99/100) ()
      = ⟨false, fun _ => none⟩ := by
    unfold createChaosCondition
    rw [hfire]
    rfl
  refine ⟨by decide, by decide, by decide, ?_, ?_⟩
  · rw [hwrap]
  · rw [hwrap]

/-- The run-state component of a due alert's processing is exactly the
marker update, whatever the pipeline does. -/
theorem processAlert_due_runstate {ρ : Type} (env : Env) (cfg : BotConfig)
    (lastRuns : RunMap) (a : AlertBehavior ρ)
    (hdue : shouldRunAlert env a.cfg lastRuns cfg = true) :
    (processAlert env cfg lastRuns a).1
      = setRun lastRuns a.cfg.name (runMarker env cfg a.cfg) := by
  unfold processAlert
  rw [hdue]
  rfl

/-- C8: one alert's pipeline failing (any combination of a throwing query,
condition, message, or a failed webhook send — `bad` is arbitrary) does not
prevent a later well-behaved alert in the same tick from sending its
notification, and the failing alert's last-run marker is still written, so it
is not retried on the next tick. -/
theorem c8_unit_isolation {ρ : Type} (env : Env) (cfg : BotConfig)
    (lastRuns : RunMap) (bad good : AlertBehavior ρ) (rows : List ρ)
    (text : String)
    (hname : bad.cfg.name ≠ good.cfg.name)
    (hbadDue : shouldRunAlert env bad.cfg lastRuns cfg = true)
    (hgoodDue : shouldRunAlert env good.cfg
      (setRun lastRuns bad.cfg.name (runMarker env cfg bad.cfg)) cfg = true)
    (hq : good.queryResult = Except.ok rows)
    (hc : good.condition (some rows) = Except.ok true)
    (hm : good.message (some rows) = Except.ok text)
    (hn : good.notifyOk = true) :
    Event.mainNotify good.cfg.name text
      ∈ (processTick env cfg [bad, good] lastRuns).2 ∧
    (processTick env cfg [bad, good] lastRuns).1 bad.cfg.name
      = some (runMarker env cfg bad.cfg) := by
  have hbad1 := processAlert_due_runstate env cfg lastRuns bad hbadDue
  have hgoodev : alertEvents good = [Event.mainNotify good.cfg.name text] := by
    unfold alertEvents
    rw [hq]
    dsimp only
    rw [hc, hm, hn]
    rfl
  have hgood1 : processAlert env cfg
      (setRun lastRuns bad.cfg.name (runMarker env cfg bad.cfg)) good
      = (setRun (setRun lastRuns bad.cfg.name (runMarker env cfg bad.cfg))
          good.cfg.name (runMarker env cfg good.cfg), alertEvents good, true) := by
    unfold processAlert
    rw [hgoodDue]
    rfl
  have htick : processTick env cfg [bad, good] lastRuns
      = ((processAlert env cfg (processAlert env cfg lastRuns bad).1 good).1,
         (processAlert env cfg lastRuns bad).2.1
           ++ ((processAlert env cfg (processAlert env cfg lastRuns bad).1 good).2.1
                ++ [])) := rfl
  rw [htick, hbad1, hgood1]
  constructor
  · simp [hgoodev]
  · show setRun (setRun lastRuns bad.cfg.name (runMarker env cfg bad.cfg))
        good.cfg.name (runMarker env cfg good.cfg) bad.cfg.name
      = some (runMarker env cfg bad.cfg)
    simp [setRun, hname]

/-- Witness for C8: a unit whose query and condition both throw, followed by a
healthy unit, on a cold-start tick. -/
theorem c8_unit_isolation_witness :
    Event.mainNotify "Collective Time Wasted Alert" "milestone text"
      ∈ (processTick env0 cfg0
          [⟨⟨"Site Download Milestones Alert", some "10m"⟩,
            Except.error "ECONNREFUSED",
            fun _ => Except.error "TypeError", fun _ => Except.error "unreached",
            false⟩,
           ⟨⟨"Collective Time Wasted Alert", some "15m"⟩,
            Except.ok [()], fun _ => Except.ok true,
            fun _ => Except.ok "milestone text", true⟩] emptyRuns).2 ∧
    (processTick env0 cfg0
          [⟨⟨"Site Download Milestones Alert", some "10m"⟩,
            Except.error "ECONNREFUSED",
            fun _ => Except.error "TypeError", fun _ => Except.error "unreached",
            false⟩,
           ⟨⟨"Collective Time Wasted Alert", some "15m"⟩,
            Except.ok [()], fun _ => Except.ok true,
            fun _ => Except.ok "milestone text", true⟩] emptyRuns).1
        "Site Download Milestones Alert"
      = some (runMarker env0 cfg0 ⟨"Site Download Milestones Alert", some "10m"⟩) := by
  exact c8_unit_isolation env0 cfg0 emptyRuns _ _ [()] "milestone text"
    (by decide) (by decide) (by decide) rfl rfl rfl rfl

/-- A later tick of the same civil day: one hour after `env0`. -/
def envDay1b : Env := ⟨1700003600000, fun _ => "2024-01-05", fun _ => 9⟩

/-- The next civil day in the configured timezone. -/
def envDay2 : Env := ⟨1700086400000, fun _ => "2024-01-06", fun _ => 9⟩

/-- The daily winners alert's scheduling configuration. -/
def dailyAlert : AlertCfg := ⟨"Daily Winners Alert", some "daily"⟩

/-- Witness for C6: after a run recorded on 2024-01-05, a same-day re-check is
not due and a next-day check (at the target hour) is due again. -/
theorem c6_daily_cadence_witness :
    shouldRunAlert envDay1b dailyAlert
      (setRun emptyRuns dailyAlert.name (runMarker env0 cfg0 dailyAlert))
      cfg0 = false ∧
    shouldRunAlert envDay2 dailyAlert
      (setRun emptyRuns dailyAlert.name (runMarker env0 cfg0 dailyAlert))
      cfg0 = true := by
  have h := c6_daily_cadence env0 envDay1b envDay2 cfg0 dailyAlert emptyRuns rfl
  refine ⟨h.2.2.1 rfl, ?_⟩
  rw [h.2.2.2 (by decide)]
  decide

/-- A 5-minute alert configuration for the C7 witness. -/
def alert5m : AlertCfg := ⟨"Cumulative Data Milestone Alert", some "5m"⟩

/-- Witness for C7: a `"5m"` alert whose last run was 300001 ms ago is due. -/
theorem c7_interval_due_witness :
    shouldRunAlert env0 alert5m (fun _ => some (.ts 1699999699999)) cfg0
      = true := by
  have h := c7_interval_due env0 alert5m (fun _ => some (.ts 1699999699999))
    cfg0 300000 (by decide)
  exact h.2.2.2.1 (by decide)

end Multigig

namespace Multigig

/-! ### Site download milestone alert (src: Site Download Milestones Alert)

The persisted `siteDownloadMilestones.json` state is a `lastCelebrationTime`
plus one celebrated-identifier array per site.  The condition and message
functions each re-load the file; since the condition never saves, one
evaluation driven by the tick loop is: condition on the persisted state, then
(when true) message on the same persisted state, whose save becomes the new
persisted state. -/

/-- One row of the per-site download query (`GROUP BY "test_site"`). -/
structure SiteRow where
  test_site : Option String
  total_download_bytes : Option Nat
  deriving DecidableEq, Repr

/-- `result.test_site || "Unknown"` in the condition (empty string is falsy). -/
def rowSiteCond (r : SiteRow) : String :=
  match r.test_site with
  | some s => if s = "" then "Unknown" else s
  | none => "Unknown"

/-- `result.test_site || "The Shadow Realm"` in the message function. -/
def rowSiteMsg (r : SiteRow) : String :=
  match r.test_site with
  | some s => if s = "" then "The Shadow Realm" else s
  | none => "The Shadow Realm"

/-- `result.total_download_bytes || 0`. -/
def rowBytes (r : SiteRow) : Nat := r.total_download_bytes.getD 0

/-- The persisted milestone state of the site download alert. -/
structure SDState where
  lastCelebrationTime : Int
  celebrated : String → List String

/-- Missing state file: `{ lastCelebrationTime: 0 }`, every site reads `[]`. -/
def sdFresh : SDState := ⟨0, fun _ => []⟩

/-- The alert's milestone table (identifier, bytes). -/
def sdMilestones : List (String × Nat) :=
  [("100GB", 107374182400), ("300GB", 322122547200),
   ("500GB", 536870912000), ("1TB", 1099511627776)]

/-- The condition function: empty or missing results give false; then the
10-minute global rate limit against the loaded `lastCelebrationTime`; then
true iff some site has reached a milestone absent from its celebrated list.
The source's `celebratedMilestones.lastCelebrationTime = now` assignment
mutates only the local loaded copy, which the condition never saves, so it is
not observable. -/
def sdCondition (st : SDState) (now : Int) (results : Option (List SiteRow)) :
    Bool :=
  match results with
  | none => false
  | some rows =>
    if rows = [] then false
    else if now - st.lastCelebrationTime < 600000 then false
    else
      rows.any fun r =>
        sdMilestones.any fun m =>
          decide (m.2 ≤ rowBytes r) &&
            !((st.celebrated (rowSiteCond r)).contains m.1)

/-- `celebratedMilestones[siteName].push(milestone.id)`: appends one
identifier to a site's celebrated list. -/
def sdPush (st : SDState) (site i : String) : SDState :=
  { st with celebrated := fun n =>
      if n = site then st.celebrated site ++ [i] else st.celebrated n }

/-- The `milestones.forEach` body of the message function for one row: each
milestone reached and not yet celebrated is appended to the site's celebrated
list and reported, in milestone order. -/
def sdMark (st : SDState) (site : String) (bytes : Nat) :
    List (String × Nat) → SDState × List String
  | [] => (st, [])
  | m :: ms =>
    if decide (m.2 ≤ bytes) && !((st.celebrated site).contains m.1) then
      let r := sdMark (sdPush st site m.1) site bytes ms
      (r.1, m.1 :: r.2)
    else sdMark st site bytes ms

/-- The message function: runs over all rows, marking and collecting the
(site, milestone) achievements, and saves the updated state — leaving
`lastCelebrationTime` exactly as it was loaded from the file. -/
def sdMessage (st : SDState) : List SiteRow → SDState × List (String × String)
  | [] => (st, [])
  | r :: rs =>
    let m1 := sdMark st (rowSiteMsg r) (rowBytes r) sdMilestones
    let m2 := sdMessage m1.1 rs
    (m2.1, (m1.2.map fun i => (rowSiteMsg r, i)) ++ m2.2)

/-- One tick-driven evaluation of the site download alert. -/
def sdEvalStep (st : SDState) (now : Int) (rows : List SiteRow) :
    SDState × List (String × String) :=
  if sdCondition st now (some rows) then sdMessage st rows else (st, [])

/-- A run of successive evaluations against the persisted state. -/
def sdRun (st : SDState) :
    List (Int × List SiteRow) → SDState × List (String × String)
  | [] => (st, [])
  | (now, rows) :: rest =>
    let s1 := sdEvalStep st now rows
    let s2 := sdRun s1.1 rest
    (s2.1, s1.2 ++ s2.2)

/-! ### Cumulative data milestone alert (src/alerts/cumulativeDataAlert.js) -/

/-- The single row of the cumulative totals query. -/
structure CumRow where
  total_download_bytes : Option Nat
  total_upload_bytes : Option Nat
  deriving DecidableEq, Repr

/-- `Math.floor(totalTB)` over `results[0]` (whole terabytes, 1 TB = 2^40
bytes; byte totals are natural numbers so the floor is Nat division). -/
def cumMilestoneOf (rows : List CumRow) : Nat :=
  match rows with
  | [] => 0
  | r :: _ =>
    (r.total_download_bytes.getD 0 + r.total_upload_bytes.getD 0) / 1099511627776

/-- The condition function: computes the current integer-TB floor, requires it
to be at least 1 and not yet in `celebratedTB`, and marks it celebrated
(pushed and kept sorted, then saved) before returning true.  Only the single
current floor is ever considered. -/
def cumCondition (st : List Nat) (results : Option (List CumRow)) :
    Bool × List Nat :=
  match results with
  | none => (false, st)
  | some [] => (false, st)
  | some (r :: rest) =>
    let currentMilestone := cumMilestoneOf (r :: rest)
    if currentMilestone < 1 then (false, st)
    else if st.contains currentMilestone then (false, st)
    else (true, (st ++ [currentMilestone]).insertionSort (· ≤ ·))

/-- One tick-driven evaluation of the cumulative alert: the condition both
decides and marks; when it fires, the message reports the current floor. -/
def cumEvalStep (st : List Nat) (rows : List CumRow) : List Nat × List Nat :=
  let c := cumCondition st (some rows)
  if c.1 then (c.2, [cumMilestoneOf rows]) else (c.2, [])

/-- A run of successive evaluations of the cumulative alert. -/
def cumRun (st : List Nat) : List (List CumRow) → List Nat × List Nat
  | [] => (st, [])
  | rows :: rest =>
    let s1 := cumEvalStep st rows
    let s2 := cumRun s1.1 rest
    (s2.1, s1.2 ++ s2.2)

end Multigig

namespace Multigig

/-! ### Theorems for claims C3 and C5 (counterexample and bug evaluation) -/

/-- C5: the claim says any two celebrations of a milestone alert with a
celebration cooldown are at least the configured spacing apart (10 minutes for
the site download alert).  In the code the condition only sets
`lastCelebrationTime` on a local copy it never saves, and the message function
re-loads and saves the state without touching `lastCelebrationTime`, so the
persisted value stays 0 forever: here a fresh state celebrates 100GB at
t = 600000 ms, the saved state still carries `lastCelebrationTime = 0`, and a
second celebration (300GB) fires only 1000 ms later — the 10-minute cooldown
never suppresses anything. -/
theorem c5_rate_limit_never_persisted :
    (sdEvalStep sdFresh 600000 [⟨some "SiteA", some 107374182400⟩]).2
      = [("SiteA", "100GB")] ∧
    (sdEvalStep sdFresh 600000
        [⟨some "SiteA", some 107374182400⟩]).1.lastCelebrationTime = 0 ∧
    (sdEvalStep (sdEvalStep sdFresh 600000
          [⟨some "SiteA", some 107374182400⟩]).1 601000
        [⟨some "SiteA", some 322122547200⟩]).2
      = [("SiteA", "300GB")] := by
  refine ⟨by decide, by decide, by decide⟩

/-- C3 counterexample: the cumulative data alert only considers the current
integer-TB floor, so a value of 2.5 TB (2748779069440 bytes) crosses both the
1 TB and the 2 TB thresholds but reports only milestone 2; milestone 1 is
never reported as newly crossed over the whole (constant, hence
non-decreasing) sequence, contradicting the claim's "each milestone whose
threshold is crossed is reported exactly once". -/
theorem c3_cumulative_skips_milestones :
    (1099511627776 : Nat) ≤ 2748779069440 ∧
    (2 : Nat) * 1099511627776 ≤ 2748779069440 ∧
    (cumRun [] [[⟨some 2748779069440, some 0⟩],
                [⟨some 2748779069440, some 0⟩]]).2 = [2] ∧
    (cumRun [] [[⟨some 2748779069440, some 0⟩],
                [⟨some 2748779069440, some 0⟩]]).2.count 1 = 0 := by
  refine ⟨by norm_num, by norm_num, by decide, by decide⟩

end Multigig


namespace Multigig

/-! ### Exactly-once / at-most-once milestone reporting (claim C3) -/

/-- `contains` distributes over list append. -/
theorem contains_append (A B : List String) (x : String) :
    (A ++ B).contains x = (A.contains x || B.contains x) := by
  rw [Bool.eq_iff_iff]
  simp [List.mem_append]

/-- Appending a different identifier does not change a `contains` check. -/
theorem contains_append_single (A : List String) (x y : String) (h : y ≠ x) :
    (A ++ [x]).contains y = A.contains y := by
  rw [Bool.eq_iff_iff]
  simp [List.mem_append, h]

/-- What `sdMark` does, for any milestone sublist with distinct identifiers:
it reports exactly the identifiers of milestones that are reached and not yet
celebrated, appends them to the site's celebrated list in order, and leaves
`lastCelebrationTime` alone. -/
theorem sdMark_reports (ms : List (String × Nat)) :
    ∀ (st : SDState) (site : String) (bytes : Nat),
      (ms.map Prod.fst).Nodup →
      (sdMark st site bytes ms).2
        = (ms.filter fun m =>
            decide (m.2 ≤ bytes) && !((st.celebrated site).contains m.1)).map
              Prod.fst ∧
      (sdMark st site bytes ms).1.celebrated site
        = st.celebrated site ++ (sdMark st site bytes ms).2 ∧
      (sdMark st site bytes ms).1.lastCelebrationTime
        = st.lastCelebrationTime := by
  induction ms with
  | nil =>
    intro st site bytes _
    simp [sdMark]
  | cons a ms ih =>
    intro st site bytes hids
    rw [List.map_cons, List.nodup_cons] at hids
    obtain ⟨ha, hids⟩ := hids
    cases hc : (decide (a.2 ≤ bytes) && !((st.celebrated site).contains a.1)) with
    | true =>
      have hmark : sdMark st site bytes (a :: ms)
          = ((sdMark (sdPush st site a.1) site bytes ms).1,
             a.1 :: (sdMark (sdPush st site a.1) site bytes ms).2) := by
        rw [sdMark, if_pos hc]
      obtain ⟨ih1, ih2, ih3⟩ := ih (sdPush st site a.1) site bytes hids
      have hcel1 : (sdPush st site a.1).celebrated site
          = st.celebrated site ++ [a.1] := by
        simp [sdPush]
      have hfeq : (ms.filter fun m => decide (m.2 ≤ bytes) &&
            !(((sdPush st site a.1).celebrated site).contains m.1))
          = ms.filter fun m => decide (m.2 ≤ bytes) &&
              !((st.celebrated site).contains m.1) := by
        apply List.filter_congr
        intro m hmem
        have hne : m.1 ≠ a.1 := fun he =>
          ha (he ▸ List.mem_map_of_mem Prod.fst hmem)
        rw [hcel1, contains_append_single _ _ _ hne]
      refine ⟨?_, ?_, ?_⟩
      · rw [hmark]
        show a.1 :: _ = _
        rw [ih1, hfeq,
          List.filter_cons_of_pos (p := fun m : String × Nat =>
            decide (m.2 ≤ bytes) && !((st.celebrated site).contains m.1))
            (a := a) hc, List.map_cons]
      · rw [hmark]
        show (sdMark (sdPush st site a.1) site bytes ms).1.celebrated site = _
        rw [ih2, hcel1, List.append_assoc, List.singleton_append]
      · rw [hmark]
        show (sdMark (sdPush st site a.1) site bytes ms).1.lastCelebrationTime = _
        rw [ih3]
        rfl
    | false =>
      have hmark : sdMark st site bytes (a :: ms) = sdMark st site bytes ms := by
        rw [sdMark, if_neg (by rw [hc]; exact Bool.false_ne_true)]
      obtain ⟨ih1, ih2, ih3⟩ := ih st site bytes hids
      refine ⟨?_, ?_, ?_⟩
      · rw [hmark, ih1,
          List.filter_cons_of_neg (p := fun m : String × Nat =>
            decide (m.2 ≤ bytes) && !((st.celebrated site).contains m.1))
            (a := a) (by
              show ¬ (decide (a.2 ≤ bytes) &&
                !((st.celebrated site).contains a.1)) = true
              rw [hc]
              exact Bool.false_ne_true)]
      · rw [hmark, ih2]
      · rw [hmark, ih3]

/-- One evaluation of the site download alert on a single-site row, under the
persisted `lastCelebrationTime = 0` (which the code never changes) and a
realistic clock: the rate limit always passes, so the step reports the newly
reached milestone identifiers, appends them to the site's celebrated list, and
keeps `lastCelebrationTime = 0`. -/
theorem sdEvalStep_single (st : SDState) (now : Int) (site : String) (v : Nat)
    (hsite : site ≠ "") (htime : st.lastCelebrationTime = 0)
    (hnow : (600000 : Int) ≤ now) :
    (sdEvalStep st now [⟨some site, some v⟩]).1.lastCelebrationTime = 0 ∧
    (sdEvalStep st now [⟨some site, some v⟩]).1.celebrated site
      = st.celebrated site ++
        ((sdMilestones.filter fun m =>
            decide (m.2 ≤ v) && !((st.celebrated site).contains m.1)).map
              Prod.fst) ∧
    (sdEvalStep st now [⟨some site, some v⟩]).2
      = ((sdMilestones.filter fun m =>
            decide (m.2 ≤ v) && !((st.celebrated site).contains m.1)).map
              Prod.fst).map fun i => (site, i) := by
  have hrow1 : rowSiteCond ⟨some site, some v⟩ = site := by
    simp [rowSiteCond, hsite]
  have hrow2 : rowSiteMsg ⟨some site, some v⟩ = site := by
    simp [rowSiteMsg, hsite]
  have hrate : ¬ (now - st.lastCelebrationTime < 600000) := by omega
  have hcond : sdCondition st now (some [⟨some site, some v⟩])
      = sdMilestones.any fun m =>
          decide (m.2 ≤ v) && !((st.celebrated site).contains m.1) := by
    simp [sdCondition, hrate, hrow1, rowBytes]
  have hids : (sdMilestones.map Prod.fst).Nodup := by decide
  obtain ⟨h1, h2, h3⟩ := sdMark_reports sdMilestones st site v hids
  cases hany : (sdMilestones.any fun m =>
      decide (m.2 ≤ v) && !((st.celebrated site).contains m.1)) with
  | true =>
    have hmsg : sdMessage st [⟨some site, some v⟩]
        = ((sdMark st site v sdMilestones).1,
           ((sdMark st site v sdMilestones).2.map fun i => (site, i)) ++ []) := by
      simp only [sdMessage, hrow2, rowBytes, Option.getD_some]
    have hstep : sdEvalStep st now [⟨some site, some v⟩]
        = ((sdMark st site v sdMilestones).1,
           ((sdMark st site v sdMilestones).2.map fun i => (site, i)) ++ []) := by
      unfold sdEvalStep
      rw [hcond, hany, if_pos rfl, hmsg]
    refine ⟨?_, ?_, ?_⟩
    · rw [hstep]
      show (sdMark st site v sdMilestones).1.lastCelebrationTime = 0
      rw [h3, htime]
    · rw [hstep]
      show (sdMark st site v sdMilestones).1.celebrated site = _
      rw [h2, h1]
    · rw [hstep]
      show ((sdMark st site v sdMilestones).2.map fun i => (site, i)) ++ [] = _
      rw [List.append_nil, h1]
  | false =>
    have hstep : sdEvalStep st now [⟨some site, some v⟩] = (st, []) := by
      unfold sdEvalStep
      rw [hcond, hany]
      simp
    have hfilt : (sdMilestones.filter fun m =>
        decide (m.2 ≤ v) && !((st.celebrated site).contains m.1)) = [] := by
      rw [List.filter_eq_nil_iff]
      intro m hmem
      simp only [List.any_eq_false] at hany
      exact hany m hmem
    refine ⟨?_, ?_, ?_⟩
    · rw [hstep]
      exact htime
    · rw [hstep, hfilt]
      simp
    · rw [hstep, hfilt]
      simp

/-- In the identifier list of a filtered milestone table with distinct
identifiers, a milestone's identifier occurs once when the filter keeps it and
never otherwise. -/
theorem count_ids_filter (p : (String × Nat) → Bool) (m : String × Nat) :
    ∀ ms : List (String × Nat), m ∈ ms → (ms.map Prod.fst).Nodup →
      ((ms.filter p).map Prod.fst).count m.1 = if p m then 1 else 0 := by
  intro ms
  induction ms with
  | nil =>
    intro hm
    cases hm
  | cons a ms ih =>
    intro hm hids
    rw [List.map_cons, List.nodup_cons] at hids
    obtain ⟨ha, hids⟩ := hids
    rcases List.mem_cons.mp hm with rfl | hm2
    · have hnot : m.1 ∉ (ms.filter p).map Prod.fst := by
        intro hmem
        obtain ⟨x, hx, hxe⟩ := List.mem_map.mp hmem
        exact ha (hxe ▸ List.mem_map_of_mem Prod.fst (List.mem_of_mem_filter hx))
      cases hp : p m with
      | true =>
        rw [List.filter_cons_of_pos hp, List.map_cons, List.count_cons_self,
          List.count_eq_zero.mpr hnot]
        simp [hp]
      | false =>
        rw [List.filter_cons_of_neg (by rw [hp]; exact Bool.false_ne_true),
          List.count_eq_zero.mpr hnot]
        simp [hp]
    · have hne : m.1 ≠ a.1 := fun he =>
        ha (he ▸ List.mem_map_of_mem Prod.fst hm2)
      cases hp : p a with
      | true =>
        rw [List.filter_cons_of_pos hp, List.map_cons,
          List.count_cons_of_ne hne]
        exact ih hm2 hids
      | false =>
        rw [List.filter_cons_of_neg (by rw [hp]; exact Bool.false_ne_true)]
        exact ih hm2 hids

/-- `contains` form of `count_ids_filter`. -/
theorem contains_ids_filter (p : (String × Nat) → Bool) (m : String × Nat)
    (ms : List (String × Nat)) (hm : m ∈ ms) (hids : (ms.map Prod.fst).Nodup) :
    ((ms.filter p).map Prod.fst).contains m.1 = p m := by
  have hc := count_ids_filter p m ms hm hids
  cases hp : p m with
  | true =>
    rw [hp, if_pos rfl] at hc
    exact List.elem_iff.mpr (List.count_pos_iff.mp (by omega))
  | false =>
    rw [hp, if_neg Bool.false_ne_true] at hc
    have hnm : m.1 ∉ (ms.filter p).map Prod.fst := List.count_eq_zero.mp hc
    rw [Bool.eq_iff_iff]
    simp [hnm]

/-- Counting a fixed-site pair in a site-tagged identifier list. -/
theorem count_pair_map (l : List String) (site i : String) :
    (l.map fun j => (site, j)).count (site, i) = l.count i := by
  induction l with
  | nil => simp
  | cons j l ih =>
    by_cases h : j = i
    · subst h
      simp [List.count_cons, ih]
    · rw [List.map_cons, List.count_cons_of_ne (by simp [Ne.symm h]), ih,
        List.count_cons_of_ne (Ne.symm h)]

/-- The site download alert reports each milestone exactly once over a
monotone single-site value sequence: starting from a state whose celebrated
list for the site matches "reached at value `vp`" and whose persisted
`lastCelebrationTime` is 0, a milestone is reported once across the whole run
when some value reaches its threshold (and the start had not), and never
otherwise. -/
theorem sdRun_count_single (m : String × Nat) (hm : m ∈ sdMilestones) :
    ∀ (steps : List (Int × Nat)) (vp : Nat) (st : SDState),
      st.lastCelebrationTime = 0 →
      (∀ m2 ∈ sdMilestones,
        ((st.celebrated "SiteA").contains m2.1) = decide (m2.2 ≤ vp)) →
      List.Chain (· ≤ ·) vp (steps.map Prod.snd) →
      (∀ s ∈ steps, (600000 : Int) ≤ s.1) →
      ((sdRun st (steps.map fun s => (s.1, [⟨some "SiteA", some s.2⟩]))).2.count
          ("SiteA", m.1))
        = if ¬ m.2 ≤ vp ∧ ∃ s ∈ steps, m.2 ≤ s.2 then 1 else 0 := by
  intro steps
  induction steps with
  | nil =>
    intro vp st _ _ _ _
    simp [sdRun]
  | cons s rest ih =>
    intro vp st htime hcel hchain htimes
    obtain ⟨t, v⟩ := s
    rw [List.map_cons, List.chain_cons] at hchain
    obtain ⟨hvpv, hchain⟩ := hchain
    obtain ⟨he1, he2, he3⟩ := sdEvalStep_single st t "SiteA" v (by decide) htime
      (htimes (t, v) (List.mem_cons_self _ _))
    have hids : (sdMilestones.map Prod.fst).Nodup := by decide
    have hfeq : (sdMilestones.filter fun mm =>
          decide (mm.2 ≤ v) && !((st.celebrated "SiteA").contains mm.1))
        = sdMilestones.filter fun mm =>
            decide (mm.2 ≤ v) && !(decide (mm.2 ≤ vp)) := by
      apply List.filter_congr
      intro mm hmm
      rw [hcel mm hmm]
    have hcel2 : ∀ m2 ∈ sdMilestones,
        (((sdEvalStep st t [⟨some "SiteA", some v⟩]).1.celebrated
            "SiteA").contains m2.1) = decide (m2.2 ≤ v) := by
      intro m2 hm2
      rw [he2, hfeq, contains_append, hcel m2 hm2,
        contains_ids_filter _ m2 _ hm2 hids]
      cases h1 : decide (m2.2 ≤ vp) with
      | true =>
        have hle : m2.2 ≤ v := le_trans (of_decide_eq_true h1) hvpv
        simp [hle]
      | false =>
        simp
    have hstep : ((sdEvalStep st t [⟨some "SiteA", some v⟩]).2.count
          ("SiteA", m.1))
        = if m.2 ≤ v ∧ ¬ m.2 ≤ vp then 1 else 0 := by
      rw [he3, hfeq, count_pair_map, count_ids_filter _ m _ hm hids]
      have hiff : ((decide (m.2 ≤ v) && !(decide (m.2 ≤ vp))) = true)
          ↔ (m.2 ≤ v ∧ ¬ m.2 ≤ vp) := by
        simp
      exact if_congr hiff rfl rfl
    have hrest := ih v (sdEvalStep st t [⟨some "SiteA", some v⟩]).1 he1 hcel2
      hchain (fun q hq => htimes q (List.mem_cons_of_mem _ hq))
    have hrun : (sdRun st
          (((t, v) :: rest).map fun s => (s.1, [⟨some "SiteA", some s.2⟩]))).2
        = (sdEvalStep st t [⟨some "SiteA", some v⟩]).2
          ++ (sdRun (sdEvalStep st t [⟨some "SiteA", some v⟩]).1
                (rest.map fun s => (s.1, [⟨some "SiteA", some s.2⟩]))).2 := rfl
    rw [hrun, List.count_append, hstep, hrest]
    have hcons : (∃ q ∈ (t, v) :: rest, m.2 ≤ q.2)
        ↔ (m.2 ≤ v ∨ ∃ q ∈ rest, m.2 ≤ q.2) := by
      simp
    by_cases hvp : m.2 ≤ vp
    · have hv : m.2 ≤ v := le_trans hvp hvpv
      simp [hv, hvp]
    · by_cases hv : m.2 ≤ v
      · simp [hv, hvp, hcons]
      · by_cases hex : ∃ q ∈ rest, m.2 ≤ q.2
        · simp [hv, hvp, hcons, hex]
        · simp [hv, hvp, hcons, hex]

/-- Case split on the cumulative alert's condition: it either declines and
leaves the state alone, or the current integer-TB floor is at least 1, was
not yet celebrated, and gets inserted into the sorted celebrated list. -/
theorem cumCondition_cases (st : List Nat) (rows : List CumRow) :
    (cumCondition st (some rows) = (false, st)) ∨
    ((cumCondition st (some rows)).1 = true ∧
      1 ≤ cumMilestoneOf rows ∧
      st.contains (cumMilestoneOf rows) = false ∧
      (cumCondition st (some rows)).2
        = (st ++ [cumMilestoneOf rows]).insertionSort (· ≤ ·)) := by
  cases rows with
  | nil => exact Or.inl rfl
  | cons r rest =>
    have heq : cumCondition st (some (r :: rest))
        = if cumMilestoneOf (r :: rest) < 1 then (false, st)
          else if st.contains (cumMilestoneOf (r :: rest)) then (false, st)
          else (true,
            (st ++ [cumMilestoneOf (r :: rest)]).insertionSort (· ≤ ·)) := rfl
    rw [heq]
    by_cases h1 : cumMilestoneOf (r :: rest) < 1
    · rw [if_pos h1]
      exact Or.inl rfl
    · rw [if_neg h1]
      cases h2 : st.contains (cumMilestoneOf (r :: rest)) with
      | true =>
        rw [if_pos rfl]
        exact Or.inl rfl
      | false =>
        rw [if_neg Bool.false_ne_true]
        exact Or.inr ⟨rfl, by omega, rfl, rfl⟩

/-- The cumulative alert never reports the same integer-TB milestone twice:
once `k` is in the celebrated list it is never reported, and a report of `k`
puts it there. -/
theorem cumRun_count_le (k : Nat) :
    ∀ (seqs : List (List CumRow)) (st : List Nat),
      (cumRun st seqs).2.count k ≤ if st.contains k then 0 else 1 := by
  intro seqs
  induction seqs with
  | nil =>
    intro st
    simp [cumRun]
  | cons rows rest ih =>
    intro st
    have hrun : (cumRun st (rows :: rest)).2
        = (cumEvalStep st rows).2 ++ (cumRun (cumEvalStep st rows).1 rest).2 :=
      rfl
    rw [hrun, List.count_append]
    rcases cumCondition_cases st rows with hf | ⟨ht, _, hnc, hst⟩
    · have hev : cumEvalStep st rows = (st, []) := by
        show (if (cumCondition st (some rows)).1 = true
            then ((cumCondition st (some rows)).2, [cumMilestoneOf rows])
            else ((cumCondition st (some rows)).2, [])) = (st, [])
        rw [hf]
        rfl
      rw [hev]
      simpa using ih st
    · have hev : cumEvalStep st rows
          = ((st ++ [cumMilestoneOf rows]).insertionSort (· ≤ ·),
             [cumMilestoneOf rows]) := by
        show (if (cumCondition st (some rows)).1 = true
            then ((cumCondition st (some rows)).2, [cumMilestoneOf rows])
            else ((cumCondition st (some rows)).2, []))
          = ((st ++ [cumMilestoneOf rows]).insertionSort (· ≤ ·),
             [cumMilestoneOf rows])
        rw [ht, hst, if_pos rfl]
      rw [hev]
      by_cases hk : k = cumMilestoneOf rows
      · have hcontains :
            (((st ++ [cumMilestoneOf rows]).insertionSort (· ≤ ·)).contains k)
              = true :=
          List.elem_iff.mpr ((List.mem_insertionSort _).mpr
            (List.mem_append_right _ (by rw [hk]; exact List.mem_singleton_self _)))
        have hrest := ih ((st ++ [cumMilestoneOf rows]).insertionSort (· ≤ ·))
        rw [hcontains] at hrest
        simp at hrest
        have hone : ([cumMilestoneOf rows] : List Nat).count k = 1 := by
          simp [hk]
        have hnk : st.contains k = false := by
          rw [hk]
          exact hnc
        have hmem : k ∉ st := by
          intro hmemk
          have hck : st.contains k = true := List.elem_iff.mpr hmemk
          rw [hnk] at hck
          exact absurd hck (by decide)
        simp [hone, hmem]
        omega
      · have hcontains :
            (((st ++ [cumMilestoneOf rows]).insertionSort (· ≤ ·)).contains k)
              = st.contains k := by
          rw [Bool.eq_iff_iff]
          simp [List.mem_insertionSort, List.mem_append, hk]
        have hrest := ih ((st ++ [cumMilestoneOf rows]).insertionSort (· ≤ ·))
        rw [hcontains] at hrest
        have hz : ([cumMilestoneOf rows] : List Nat).count k = 0 := by
          simp [List.count_cons, hk]
        simpa [hz] using hrest

end Multigig

namespace Multigig

/-- C3 amended: over a monotonically non-decreasing metric sequence, the site
download milestones alert (fresh state, realistic epoch clock) reports each
milestone identifier whose threshold is crossed exactly once across the whole
run — no matter how many later evaluations observe a value at or above the
threshold — while the cumulative data alert guarantees only at-most-once: it
considers just the current integer-TB floor, so each floor value is reported
at most once (and an intermediate milestone skipped inside one jump is never
reported, see the counterexample). -/
theorem c3_milestone_dedup_amended (steps : List (Int × Nat))
    (m : String × Nat) (hm : m ∈ sdMilestones)
    (hchain : List.Chain (· ≤ ·) 0 (steps.map Prod.snd))
    (htimes : ∀ s ∈ steps, (600000 : Int) ≤ s.1) :
    ((sdRun sdFresh (steps.map fun s =>
          (s.1, [⟨some "SiteA", some s.2⟩]))).2.count ("SiteA", m.1)
      = if ∃ s ∈ steps, m.2 ≤ s.2 then 1 else 0) ∧
    ∀ (seqs : List (List CumRow)) (k : Nat), (cumRun [] seqs).2.count k ≤ 1 := by
  constructor
  · have hcel0 : ∀ m2 ∈ sdMilestones,
        ((sdFresh.celebrated "SiteA").contains m2.1) = decide (m2.2 ≤ 0) := by
      intro m2 hm2
      simp only [sdMilestones, List.mem_cons, List.mem_singleton,
        List.not_mem_nil, or_false] at hm2
      rcases hm2 with rfl | rfl | rfl | rfl <;> decide
    have h := sdRun_count_single m hm steps 0 sdFresh rfl hcel0 hchain htimes
    rw [h]
    have hpos : ¬ m.2 ≤ 0 := by
      simp only [sdMilestones, List.mem_cons, List.mem_singleton,
        List.not_mem_nil, or_false] at hm
      rcases hm with rfl | rfl | rfl | rfl <;> decide
    exact if_congr (and_iff_right hpos) rfl rfl
  · intro seqs k
    have hc := cumRun_count_le k seqs []
    simpa using hc

/-- Witness for the amended C3 at the spec's example sequence: site values
50 GB, then 110 GB, then 1.05 TB (decimal bytes); the `"100GB"` milestone
(threshold 100 · 2^30 bytes) is crossed at the second evaluation and is
reported exactly once over the run. -/
theorem c3_milestone_dedup_amended_witness :
    ((sdRun sdFresh ([((600000 : Int), (50000000000 : Nat)),
          (1200000, 110000000000), (1800000, 1050000000000)].map fun s =>
          (s.1, [⟨some "SiteA", some s.2⟩]))).2.count ("SiteA", "100GB")
      = if ∃ s ∈ [((600000 : Int), (50000000000 : Nat)),
          (1200000, 110000000000), (1800000, 1050000000000)],
          (107374182400 : Nat) ≤ s.2 then 1 else 0) ∧
    ∀ (seqs : List (List CumRow)) (k : Nat), (cumRun [] seqs).2.count k ≤ 1 :=
  c3_milestone_dedup_amended
    [((600000 : Int), (50000000000 : Nat)), (1200000, 110000000000),
      (1800000, 1050000000000)]
    ("100GB", 107374182400) (by decide)
    (by
      refine List.Chain.cons (by norm_num) ?_
      refine List.Chain.cons (by norm_num) ?_
      exact List.Chain.cons (by norm_num) List.Chain.nil)
    (by
      intro s hs
      simp only [List.mem_cons, List.mem_singleton, List.not_mem_nil,
        or_false] at hs
      rcases hs with rfl | rfl | rfl <;> norm_num)

end Multigig

namespace Multigig

/-! ### console.error rate limiting (src/index.js, console.error override)

State: the module-level `lastErrorTime` and `errorCount`.  A call of the
patched `console.error` is embedded by the time of the call and by whether
`shouldSendErrorToDiscord(message)` matches (the webhook client is assumed
initialized).  `ERROR_RATE_LIMIT_MS = 60000`, `MAX_ERRORS_PER_MINUTE = 5`. -/

/-- The module-level mutable rate-limiting state. -/
structure ErrState where
  lastErrorTime : Int
  errorCount : Nat
  deriving DecidableEq, Repr

/-- What one `console.error` call does besides logging: forward the message
to the webhook, send the one-time rate-limit notice, or nothing. -/
inductive ErrEvent where
  | forwarded
  | rateLimitNotice
  | suppressed
  deriving DecidableEq, Repr

/-- The `errorCount` after the reset check at the top of the handler
(`if (now - lastErrorTime > ERROR_RATE_LIMIT_MS) errorCount = 0`). -/
def effectiveCount (st : ErrState) (now : Int) : Nat :=
  if now - st.lastErrorTime > 60000 then 0 else st.errorCount

/-- One call of the patched `console.error`: after the reset check, a
matching message under the cap is forwarded (incrementing the count and
stamping `lastErrorTime = now`); otherwise, when the count has reached the
cap, the first such call sends the rate-limit notice (incrementing the count
past the cap, leaving `lastErrorTime` alone) and later ones do nothing. -/
def consoleErrorStep (st : ErrState) (now : Int) (matching : Bool) :
    ErrState × ErrEvent :=
  if matching ∧ effectiveCount st now < 5 then
    (⟨now, effectiveCount st now + 1⟩, .forwarded)
  else if effectiveCount st now ≥ 5 then
    if effectiveCount st now = 5 then
      ({ st with errorCount := effectiveCount st now + 1 }, .rateLimitNotice)
    else ({ st with errorCount := effectiveCount st now }, .suppressed)
  else ({ st with errorCount := effectiveCount st now }, .suppressed)

/-- A sequence of `console.error` calls, collecting the events. -/
def runErrTrace (st : ErrState) : List (Int × Bool) → ErrState × List ErrEvent
  | [] => (st, [])
  | (now, matching) :: rest =>
    let r1 := consoleErrorStep st now matching
    let r2 := runErrTrace r1.1 rest
    (r2.1, r1.2 :: r2.2)

/-- Invariant tying the state to the number of forwards `f` and notices `n`
since the window opened: either nothing has happened yet (fresh state), or
the counter records `f + n` with the last forward stamped inside the window. -/
def errInv (T0 T : Int) (st : ErrState) (f n : Nat) : Prop :=
  (f = 0 ∧ n = 0 ∧ st.errorCount = 0 ∧ st.lastErrorTime = T0) ∨
  (1 ≤ f ∧ f ≤ 5 ∧ n ≤ 1 ∧ st.errorCount = f + n ∧ (n = 1 → f = 5) ∧
    T ≤ st.lastErrorTime ∧ st.lastErrorTime ≤ T + 60000)

end Multigig

namespace Multigig

/-- Step lemma for the rate-limiter invariant: inside a one-minute window a
call either forwards (only while fewer than 5 forwards have happened),
sends the single rate-limit notice (exactly when 5 forwards have happened and
no notice yet), or does nothing — and the invariant is maintained. -/
theorem errStep_inv (T0 T : Int) (st : ErrState) (f n : Nat) (now : Int)
    (matching : Bool) (hwin1 : T ≤ now)
    (hwin2 : now ≤ T + 60000) (hinv : errInv T0 T st f n) :
    ((consoleErrorStep st now matching).2 = ErrEvent.forwarded ∧
      errInv T0 T (consoleErrorStep st now matching).1 (f + 1) n ∧
      f + 1 ≤ 5 ∧ n = 0) ∨
    ((consoleErrorStep st now matching).2 = ErrEvent.rateLimitNotice ∧
      errInv T0 T (consoleErrorStep st now matching).1 f (n + 1) ∧
      f = 5 ∧ n = 0) ∨
    ((consoleErrorStep st now matching).2 = ErrEvent.suppressed ∧
      errInv T0 T (consoleErrorStep st now matching).1 f n) := by
  rcases hinv with ⟨hf, hn, hc, hl⟩ | ⟨hf1, hf5, hn1, hc, himp, hl1, hl2⟩
  · -- fresh state: the effective count is 0 whether or not a reset fires
    have hec : effectiveCount st now = 0 := by
      unfold effectiveCount
      rw [hc]
      split <;> rfl
    cases matching with
    | true =>
      have hstep : consoleErrorStep st now true
          = (⟨now, 1⟩, ErrEvent.forwarded) := by
        unfold consoleErrorStep
        rw [hec]
        rfl
      left
      rw [hstep]
      refine ⟨rfl, Or.inr ⟨by omega, by omega, by omega, ?_, by omega,
        hwin1, hwin2⟩, by omega, hn⟩
      show (1 : Nat) = (f + 1) + n
      omega
    | false =>
      have hstep : consoleErrorStep st now false
          = ({ st with errorCount := 0 }, ErrEvent.suppressed) := by
        unfold consoleErrorStep
        rw [hec]
        rfl
      right; right
      rw [hstep]
      exact ⟨rfl, Or.inl ⟨hf, hn, rfl, hl⟩⟩
  · -- a forward already happened inside the window: no reset is possible
    have hnoreset : ¬ (now - st.lastErrorTime > 60000) := by omega
    have hec : effectiveCount st now = f + n := by
      unfold effectiveCount
      rw [if_neg hnoreset]
      exact hc
    have hn0or1 : n = 0 ∨ n = 1 := by omega
    by_cases hlt : f + n < 5
    · have hn0 : n = 0 := by
        rcases hn0or1 with h | h
        · exact h
        · exact absurd (himp h) (by omega)
      cases matching with
      | true =>
        have hstep : consoleErrorStep st now true
            = (⟨now, f + n + 1⟩, ErrEvent.forwarded) := by
          unfold consoleErrorStep
          rw [hec, if_pos ⟨rfl, hlt⟩]
        left
        rw [hstep]
        refine ⟨rfl, Or.inr ⟨by omega, by omega, by omega, ?_, by omega,
          hwin1, hwin2⟩, by omega, hn0⟩
        show f + n + 1 = (f + 1) + n
        omega
      | false =>
        have hstep : consoleErrorStep st now false
            = ({ st with errorCount := f + n }, ErrEvent.suppressed) := by
          unfold consoleErrorStep
          rw [hec, if_neg (fun hco => by exact absurd hco.1 (by decide)),
            if_neg (by omega)]
        right; right
        rw [hstep]
        exact ⟨rfl, Or.inr ⟨hf1, hf5, hn1, rfl, himp, hl1, hl2⟩⟩
    · by_cases heq : f + n = 5
      · have hn0 : n = 0 := by
          rcases hn0or1 with h | h
          · exact h
          · exact absurd (himp h) (by omega)
        have hstep : consoleErrorStep st now matching
            = ({ st with errorCount := f + n + 1 }, ErrEvent.rateLimitNotice) := by
          unfold consoleErrorStep
          rw [hec, if_neg (fun hco => hlt hco.2), if_pos (by omega),
            if_pos heq]
        right; left
        rw [hstep]
        refine ⟨rfl, Or.inr ⟨hf1, hf5, by omega, ?_, by omega, hl1, hl2⟩,
          by omega, hn0⟩
        show f + n + 1 = f + (n + 1)
        omega
      · have hstep : consoleErrorStep st now matching
            = ({ st with errorCount := f + n }, ErrEvent.suppressed) := by
          unfold consoleErrorStep
          rw [hec, if_neg (fun hco => hlt hco.2), if_pos (by omega),
            if_neg heq]
        right; right
        rw [hstep]
        exact ⟨rfl, Or.inr ⟨hf1, hf5, hn1, rfl, himp, hl1, hl2⟩⟩

/-- Within a one-minute window, a trace of `console.error` calls forwards at
most `5 - f` more messages and sends at most `1 - n` more notices. -/
theorem errTrace_bound (T0 T : Int) :
    ∀ (calls : List (Int × Bool)) (st : ErrState) (f n : Nat),
      errInv T0 T st f n →
      (∀ c ∈ calls, T ≤ c.1 ∧ c.1 ≤ T + 60000) →
      ((runErrTrace st calls).2.count ErrEvent.forwarded) + f ≤ 5 ∧
      ((runErrTrace st calls).2.count ErrEvent.rateLimitNotice) + n ≤ 1 := by
  intro calls
  induction calls with
  | nil =>
    intro st f n hinv hw
    rcases hinv with ⟨hf, hn, _, _⟩ | ⟨_, hf5, hn1, _, _, _, _⟩ <;>
      constructor <;> simp [runErrTrace] <;> omega
  | cons c rest ih =>
    intro st f n hinv hw
    obtain ⟨now, matching⟩ := c
    have hwin := hw (now, matching) (List.mem_cons_self _ _)
    have hrun : (runErrTrace st ((now, matching) :: rest)).2
        = (consoleErrorStep st now matching).2
          :: (runErrTrace (consoleErrorStep st now matching).1 rest).2 := rfl
    rw [hrun]
    have hwrest : ∀ q ∈ rest, T ≤ q.1 ∧ q.1 ≤ T + 60000 :=
      fun q hq => hw q (List.mem_cons_of_mem _ hq)
    rcases errStep_inv T0 T st f n now matching hwin.1 hwin.2 hinv with
      ⟨hev, hinv2, _, _⟩ | ⟨hev, hinv2, _, _⟩ | ⟨hev, hinv2⟩
    · obtain ⟨ih1, ih2⟩ := ih (consoleErrorStep st now matching).1 (f + 1) n
        hinv2 hwrest
      rw [hev]
      constructor <;> simp [List.count_cons] <;> omega
    · obtain ⟨ih1, ih2⟩ := ih (consoleErrorStep st now matching).1 f (n + 1)
        hinv2 hwrest
      rw [hev]
      constructor <;> simp [List.count_cons] <;> omega
    · obtain ⟨ih1, ih2⟩ := ih (consoleErrorStep st now matching).1 f n
        hinv2 hwrest
      rw [hev]
      constructor <;> simp [List.count_cons] <;> omega

/-- C10: within any one-minute window starting from the initial state, the
patched `console.error` forwards at most 5 matching messages to the webhook
and sends at most one rate-limit notice; a saturated counter does not forward
while no more than a minute has passed since the last forwarded error, and
resets (forwarding again) only once more than a minute has passed; and a
burst of 7 matching calls forwards exactly the first 5, sends the notice on
the 6th, and suppresses the 7th. -/
theorem c10_error_rate_limit (T0 T : Int) (calls : List (Int × Bool))
    (hwin : ∀ c ∈ calls, T ≤ c.1 ∧ c.1 ≤ T + 60000) :
    ((runErrTrace ⟨T0, 0⟩ calls).2.count ErrEvent.forwarded ≤ 5 ∧
     (runErrTrace ⟨T0, 0⟩ calls).2.count ErrEvent.rateLimitNotice ≤ 1) ∧
    (∀ (st : ErrState) (now : Int) (matching : Bool),
      now - st.lastErrorTime ≤ 60000 → 5 ≤ st.errorCount →
      (consoleErrorStep st now matching).2 ≠ ErrEvent.forwarded) ∧
    (∀ (st : ErrState) (now : Int), now - st.lastErrorTime > 60000 →
      (consoleErrorStep st now true).2 = ErrEvent.forwarded) ∧
    ((runErrTrace ⟨0, 0⟩ [(100000, true), (100001, true), (100002, true),
        (100003, true), (100004, true), (100005, true), (100006, true)]).2
      = [ErrEvent.forwarded, ErrEvent.forwarded, ErrEvent.forwarded,
         ErrEvent.forwarded, ErrEvent.forwarded, ErrEvent.rateLimitNotice,
         ErrEvent.suppressed]) := by
  refine ⟨?_, ?_, ?_, by decide⟩
  · have h := errTrace_bound T0 T calls ⟨T0, 0⟩ 0 0
      (Or.inl ⟨rfl, rfl, rfl, rfl⟩) hwin
    omega
  · intro st now matching hle h5
    have hec : effectiveCount st now = st.errorCount := by
      unfold effectiveCount
      rw [if_neg (by omega)]
    unfold consoleErrorStep
    rw [hec, if_neg (fun hco => by omega), if_pos (by omega)]
    split <;> simp
  · intro st now hgt
    have hec : effectiveCount st now = 0 := by
      unfold effectiveCount
      rw [if_pos hgt]
    unfold consoleErrorStep
    rw [hec, if_pos ⟨rfl, by omega⟩]

/-- Witness for C10 inside the window [100000, 160000]. -/
theorem c10_error_rate_limit_witness :
    ((runErrTrace ⟨0, 0⟩ [((100000 : Int), true), (100001, true),
        (100002, true), (100003, true), (100004, true), (100005, true),
        (100006, true)]).2.count ErrEvent.forwarded ≤ 5 ∧
     (runErrTrace ⟨0, 0⟩ [((100000 : Int), true), (100001, true),
        (100002, true), (100003, true), (100004, true), (100005, true),
        (100006, true)]).2.count ErrEvent.rateLimitNotice ≤ 1) := by
  have h := c10_error_rate_limit 0 100000
    [((100000 : Int), true), (100001, true), (100002, true), (100003, true),
      (100004, true), (100005, true), (100006, true)]
    (by
      intro c hc
      simp only [List.mem_cons, List.not_mem_nil, or_false] at hc
      rcases hc with rfl | rfl | rfl | rfl | rfl | rfl | rfl <;>
        refine ⟨by norm_num, by norm_num⟩)
  exact h.1

end Multigig
